import Mathlib

/-!
# login-example: the router and the registration / login flows

`router.go` wires the three boundary operations of the account flow
(`PreRegister`, `Activate`, `Login`) to HTTP routes.  This development embeds

* the part of the routing library `github.com/labstack/echo/v4` that `NewRouter`
  uses: allocation of an instance, route registration through a group, lookup
  of static routes.  Go holds instances by pointer, so the embedding passes the
  instances of the process explicitly;
* `NewRouter` itself, statement by statement, with the constructors of the
  packages `repository`, `usecase` and `handler` taken as parameters: once as
  functions of their arguments, for the statements about the route table, and
  once as functions that also work on the memory of their packages, for the
  statement about which objects a call makes and shares;
* the signature of `NewRouter` as data, for the statement about how its
  collaborators are typed;
* the registration and login flows behind the three handlers.  They live in
  packages outside `router.go` and are modelled from the specification; the
  store is always reachable in the model, and the clock reading and the random
  draw of a request are arguments.

Definitions come first, then the lemmas and the statements.
-/

namespace LoginExample

/-! ## The routing library -/

/-- One registered route: HTTP method, full path and the handler it dispatches to. -/
structure Route (H : Type) where
  method : String
  path : String
  handler : H
deriving DecidableEq, Repr

/-- An `echo.Echo` instance of the routing library, reduced to its route table
(registration order). -/
structure Echo (H : Type) where
  routes : List (Route H)
deriving DecidableEq, Repr

/-- The `Echo` instances that exist in the running process, by address.  Go
code holds an instance as `*echo.Echo`; the embedding holds the address and
passes the process state explicitly. -/
structure Process (H : Type) where
  echos : List (Echo H)
deriving DecidableEq, Repr

/-- An `echo.Group`: the path fragment every route of the group starts with and
the address of the instance it registers on. -/
structure Group where
  base : String
  echo : Nat
deriving DecidableEq, Repr

/-- Outcome of routing one request. -/
inductive Match (H : Type) where
  | handler (h : H)
  | methodNotAllowed
  | notFound
deriving DecidableEq, Repr

/-- The value of `http.MethodPost`. -/
def MethodPost : String := "POST"

/-- Applies `f` to the element at position `n`, leaving the list alone when
there is none. -/
def updateAt {α : Type} (f : α → α) : List α → Nat → List α
  | [], _ => []
  | x :: xs, 0 => f x :: xs
  | x :: xs, n + 1 => x :: updateAt f xs n

/-- The instance stored at an address. -/
def Process.deref {H : Type} (σ : Process H) (p : Nat) : Option (Echo H) :=
  σ.echos[p]?

/-- `echo.New()`: allocates an instance with an empty route table and returns
its address. -/
def Echo.New {H : Type} (σ : Process H) : Nat × Process H :=
  (σ.echos.length, ⟨σ.echos ++ [⟨[]⟩]⟩)

/-- `Echo.add` on one instance: registers `h` for `method` and `path`; a later
registration for the same method and path replaces the earlier one. -/
def Echo.add {H : Type} (e : Echo H) (method path : String) (h : H) : Echo H :=
  ⟨e.routes.filter (fun r => !(r.method == method && r.path == path)) ++ [⟨method, path, h⟩]⟩

/-- `e.Group(p)` without middleware: no route is registered, the group only
remembers its path fragment and its instance. -/
def Echo.Group (e : Nat) (p : String) : Group := ⟨p, e⟩

/-- `Group.Add`: registers on the owning instance under the group's fragment
followed by `path`. -/
def Group.Add {H : Type} (g : Group) (method path : String) (h : H) (σ : Process H) :
    Process H :=
  ⟨updateAt (fun e => e.add method (g.base ++ path) h) σ.echos g.echo⟩

/-- `Group.POST`. -/
def Group.POST {H : Type} (g : Group) (path : String) (h : H) (σ : Process H) : Process H :=
  g.Add MethodPost path h σ

/-- `Router.Find` for static routes (no `:param`, no `*`): the handler registered
for exactly this method and path; when the path is registered for other methods
only, the library's method-not-allowed handler; otherwise its not-found handler. -/
def Echo.find {H : Type} (e : Echo H) (method path : String) : Match H :=
  match e.routes.find? (fun r => r.method == method && r.path == path) with
  | some r => .handler r.handler
  | none => if e.routes.any (fun r => r.path == path) then .methodNotAllowed else .notFound

/-- Path syntax the static lookup does not cover: a `:` or `*` in the path. -/
def hasPattern (path : String) : Bool :=
  path.data.any (fun c => c == ':' || c == '*')

/-! ## `router.go` -/

/-- The three exported methods of the user handler that `NewRouter` mounts. -/
inductive UserHandlerMethod where
  | PreRegister
  | Activate
  | Login
deriving DecidableEq, Repr

/-- A Go method value `uh.M`: the receiver it is bound to and the method named. -/
structure MethodValue (UH : Type) where
  recv : UH
  name : UserHandlerMethod
deriving DecidableEq, Repr

/-- The functions of the packages `repository`, `usecase` and `handler` that
`NewRouter` calls.  Their bodies are outside `router.go`; `NewRouter` is
embedded over arbitrary ones. -/
structure Constructors (DB Mailer Jwt UR UU UH : Type) where
  NewUserRepository : DB → UR
  NewUserUsecase : UR → Mailer → Jwt → UU
  NewUserHandler : UU → UH

/-- `NewRouter(db, mailer, jwter)`, statement by statement: the address of the
instance it returns and the process state it leaves. -/
def NewRouter {DB Mailer Jwt UR UU UH : Type} (c : Constructors DB Mailer Jwt UR UU UH)
    (db : DB) (mailer : Mailer) (jwter : Jwt) (σ : Process (MethodValue UH)) :
    Nat × Process (MethodValue UH) :=
  let (e, σ) := Echo.New σ
  let ur := c.NewUserRepository db
  let uu := c.NewUserUsecase ur mailer jwter
  let uh := c.NewUserHandler uu
  let a := Echo.Group e "/api/auth"
  let σ := a.POST "/register/initial" ⟨uh, .PreRegister⟩ σ
  let σ := a.POST "/register/complete" ⟨uh, .Activate⟩ σ
  let σ := a.POST "/login" ⟨uh, .Login⟩ σ
  (e, σ)

/-- The router a call of `NewRouter` returns: the instance at the returned
address in the state the call leaves. -/
def NewRouter.router {DB Mailer Jwt UR UU UH : Type} (c : Constructors DB Mailer Jwt UR UU UH)
    (db : DB) (mailer : Mailer) (jwter : Jwt) (σ : Process (MethodValue UH)) :
    Option (Echo (MethodValue UH)) :=
  (NewRouter c db mailer jwter σ).2.deref (NewRouter c db mailer jwter σ).1

/-- The handler value `uh` that `NewRouter` builds from its arguments. -/
def NewRouter.uh {DB Mailer Jwt UR UU UH : Type} (c : Constructors DB Mailer Jwt UR UU UH)
    (db : DB) (mailer : Mailer) (jwter : Jwt) : UH :=
  c.NewUserHandler (c.NewUserUsecase (c.NewUserRepository db) mailer jwter)

/-- The route table the source text of `NewRouter` spells out. -/
def NewRouter.table {UH : Type} (uh : UH) : List (Route (MethodValue UH)) :=
  [⟨"POST", "/api/auth/register/initial", ⟨uh, .PreRegister⟩⟩,
   ⟨"POST", "/api/auth/register/complete", ⟨uh, .Activate⟩⟩,
   ⟨"POST", "/api/auth/login", ⟨uh, .Login⟩⟩]

/-! ## `router.go` with the constructed objects held by address

The constructors return pointers.  To speak about which object a route holds,
`NewRouter` is embedded a second time with constructors that work on the memory
of their packages and return a result together with the memory they leave. -/

/-- The functions of the packages `repository`, `usecase` and `handler` that
`NewRouter` calls, as functions that also read and change the memory `W` of
those packages.  Their bodies are outside `router.go`. -/
structure Stateful.Constructors (W DB Mailer Jwt UR UU UH : Type) where
  NewUserRepository : DB → W → UR × W
  NewUserUsecase : UR → Mailer → Jwt → W → UU × W
  NewUserHandler : UU → W → UH × W

/-- The state of the process `NewRouter` runs in: the `Echo` instances by address
and the memory of the constructors' packages.  `NewRouter` hands its router to
no constructor, so the constructors reach only the second part. -/
structure Stateful.Process (W H : Type) where
  routers : LoginExample.Process H
  world : W
deriving DecidableEq, Repr

/-- `NewRouter(db, mailer, jwter)`, statement by statement, every constructor
call made once and in the order of the source: the address of the router it
returns and the process state it leaves. -/
def Stateful.NewRouter {W DB Mailer Jwt UR UU UH : Type}
    (c : Stateful.Constructors W DB Mailer Jwt UR UU UH)
    (db : DB) (mailer : Mailer) (jwter : Jwt) (σ : Stateful.Process W (MethodValue UH)) :
    Nat × Stateful.Process W (MethodValue UH) :=
  let (e, ρ) := Echo.New σ.routers
  let (ur, w) := c.NewUserRepository db σ.world
  let (uu, w) := c.NewUserUsecase ur mailer jwter w
  let (uh, w) := c.NewUserHandler uu w
  let a := Echo.Group e "/api/auth"
  let ρ := a.POST "/register/initial" ⟨uh, .PreRegister⟩ ρ
  let ρ := a.POST "/register/complete" ⟨uh, .Activate⟩ ρ
  let ρ := a.POST "/login" ⟨uh, .Login⟩ ρ
  (e, ⟨ρ, w⟩)

/-- The router a call of `Stateful.NewRouter` returns: the instance at the
returned address in the state the call leaves. -/
def Stateful.NewRouter.router {W DB Mailer Jwt UR UU UH : Type}
    (c : Stateful.Constructors W DB Mailer Jwt UR UU UH)
    (db : DB) (mailer : Mailer) (jwter : Jwt) (σ : Stateful.Process W (MethodValue UH)) :
    Option (Echo (MethodValue UH)) :=
  (Stateful.NewRouter c db mailer jwter σ).2.routers.deref
    (Stateful.NewRouter c db mailer jwter σ).1

/-- Constructors that keep no memory, as constructors over any memory. -/
def Stateful.ofPure {W DB Mailer Jwt UR UU UH : Type}
    (c : LoginExample.Constructors DB Mailer Jwt UR UU UH) :
    Stateful.Constructors W DB Mailer Jwt UR UU UH :=
  { NewUserRepository := fun db w => (c.NewUserRepository db, w)
    NewUserUsecase := fun ur mailer jwter w => (c.NewUserUsecase ur mailer jwter, w)
    NewUserHandler := fun uu w => (c.NewUserHandler uu, w) }

/-- What it is for a call on the object memory `h` to return a pointer to a
newly allocated object: the returned address was not in use, is in use
afterwards, and every object of `h` is still where it was. -/
def Stateful.Fresh {O : Type} (h : List O) (r : Nat × List O) : Prop :=
  h.length ≤ r.1 ∧ r.1 < r.2.length ∧ h <+: r.2

/-- Constructors over an object memory each of which returns a pointer to a
newly allocated object (the Go idiom `return &T{...}`; the bodies are
outside `router.go`). -/
def Stateful.Constructors.Allocating {O DB Mailer Jwt : Type}
    (c : Stateful.Constructors (List O) DB Mailer Jwt Nat Nat Nat) : Prop :=
  (∀ db h, Stateful.Fresh h (c.NewUserRepository db h)) ∧
  (∀ ur mailer jwter h, Stateful.Fresh h (c.NewUserUsecase ur mailer jwter h)) ∧
  (∀ uu h, Stateful.Fresh h (c.NewUserHandler uu h))

/-- The objects the three constructors make when each stores what it is given. -/
inductive Stateful.Obj (DB Mailer Jwt : Type) where
  | userRepository (db : DB)
  | userUsecase (ur : Nat) (mailer : Mailer) (jwter : Jwt)
  | userHandler (uu : Nat)
deriving DecidableEq, Repr

/-- Allocation of one object: it is appended to the memory and its address
returned. -/
def Stateful.alloc {O : Type} (o : O) (h : List O) : Nat × List O :=
  (h.length, h ++ [o])

/-- Constructors that allocate one object holding their arguments. -/
def Stateful.recording {DB Mailer Jwt : Type} :
    Stateful.Constructors (List (Stateful.Obj DB Mailer Jwt)) DB Mailer Jwt Nat Nat Nat :=
  { NewUserRepository := fun db => Stateful.alloc (.userRepository db)
    NewUserUsecase := fun ur mailer jwter => Stateful.alloc (.userUsecase ur mailer jwter)
    NewUserHandler := fun uu => Stateful.alloc (.userHandler uu) }

/-- What a request sees of a route: method, path and the operation named. -/
def Route.shape {UH : Type} (r : Route (MethodValue UH)) : String × String × UserHandlerMethod :=
  (r.method, r.path, r.handler.name)

/-! ## The signature of `NewRouter` -/

/-- The Go type expressions that occur in the signature of `NewRouter`. -/
inductive GoType where
  | named (pkg name : String)
  | pointer (elem : GoType)
deriving DecidableEq, Repr

/-- Whether a type expression denotes an interface type, given which named
types their packages declare as interfaces.  A pointer type is never an
interface type, whatever it points to. -/
def GoType.isInterface (declaredInterface : String → String → Bool) : GoType → Bool
  | .named pkg name => declaredInterface pkg name
  | .pointer _ => false

/-- The parameter list of `NewRouter`: `db *sqlx.DB, mailer mail.IMailer, jwter *auth.JwtBuilder`. -/
def NewRouter.params : List (String × GoType) :=
  [("db", .pointer (.named "sqlx" "DB")),
   ("mailer", .named "mail" "IMailer"),
   ("jwter", .pointer (.named "auth" "JwtBuilder"))]

/-- The declared type of a parameter of `NewRouter`. -/
def NewRouter.paramType (name : String) : Option GoType :=
  (NewRouter.params.find? (fun p => p.1 == name)).map (fun p => p.2)

/-! ## The flows behind the handlers

`uh.PreRegister`, `uh.Activate` and `uh.Login` end in the usecase of package
`usecase`, over the repository of package `repository`; neither package is part
of `router.go`.  The definitions of this section follow the specification
(its sections 3, 4 and 6). -/

/-- Modelled from the spec: the status of a user record, `status ∈ {Pending, Active}`
(the user entity of package `repository` is not in `router.go`). -/
inductive Status where
  | Pending
  | Active
deriving DecidableEq, Repr

/-- Modelled from the spec: the persisted shape
`User{id, email, passwordHash, status, createdAt, activatedAt}` of the user
entity, which is declared outside `router.go`. -/
structure User where
  id : Nat
  email : String
  passwordHash : String
  status : Status
  createdAt : Nat
  activatedAt : Option Nat
deriving DecidableEq, Repr

/-- Modelled from the spec: the persisted shape
`ActivationToken{token, userId, issuedAt, expiresAt, consumed}`, declared
outside `router.go`. -/
structure ActivationToken where
  token : String
  userId : Nat
  issuedAt : Nat
  expiresAt : Nat
  consumed : Bool
deriving DecidableEq, Repr

/-- Modelled from the spec: the contents of the CredentialStore (the database
behind package `repository`, absent from `router.go`): user records and
activation-token records. -/
structure Store where
  users : List User
  tokens : List ActivationToken
deriving DecidableEq, Repr

/-- Modelled from the spec: the error kinds of sections 4 and 7 (declared in the
usecase package, absent from `router.go`); `ErrUpstream` is the "upstream
failure" kind of a dependency error. -/
inductive Err where
  | ErrEmailTaken
  | ErrInvalidInput
  | ErrNotifyFailed
  | ErrTokenNotFound
  | ErrTokenExpired
  | ErrTokenAlreadyUsed
  | ErrAlreadyActive
  | ErrInvalidCredentials
  | ErrUpstream
deriving DecidableEq, Repr

deriving instance DecidableEq for Except

/-- Modelled from the spec: the capability `Notifier.Send(destination,
activationToken) -> success|failure` (package `mail`, absent from `router.go`). -/
structure Notifier where
  Send : String → String → Bool

/-- Modelled from the spec: the capability `TokenSigner.Issue(userId, claims) ->
tokenString|failure` (package `auth`, absent from `router.go`); claims are
key/value pairs. -/
structure TokenSigner where
  Issue : Nat → List (String × String) → Option String

/-- Modelled from the spec: the salted one-way password function and "the same
one-way comparison function used at registration" (used inside the usecase,
absent from `router.go`): a password always compares equal to a hash made from
it, whatever the salt. -/
structure Hasher where
  hash : Nat → String → String
  compare : String → String → Bool
  compare_hash : ∀ salt pw, compare pw (hash salt pw) = true

/-- Modelled from the spec: the configurable policy of the flows (constants of
the usecase, absent from `router.go`): syntactic validity of an email, the
minimum password policy, case normalisation of emails, the fixed lifetime of an
activation token and the claims put into a session token.  The spec leaves the
thresholds open, so they are fields. -/
structure Policy where
  validEmail : String → Bool
  validPassword : String → Bool
  normalize : String → String
  ttl : Nat
  claims : List (String × String)

/-- Modelled from the spec: what the usecase (package `usecase`, absent from
`router.go`) works with besides the store: the Notifier and the TokenSigner that
`NewUserUsecase(ur, mailer, jwter)` receives, its password function and its
policy. -/
structure Deps where
  mailer : Notifier
  jwter : TokenSigner
  hasher : Hasher
  policy : Policy

/-- Modelled from the spec: the random values one `PreRegister` draws inside the
usecase (absent from `router.go`): the "opaque random value" of the activation
token and the salt of the password hash. -/
structure Random where
  token : String
  salt : Nat
deriving DecidableEq, Repr

/-- Modelled from the spec: CredentialStore operation find-user-by-email (a
method of the user repository of package `repository`, absent from `router.go`). -/
def Store.findUserByEmail (s : Store) (email : String) : Option User :=
  s.users.find? (fun u => u.email == email)

/-- Modelled from the spec: CredentialStore operation find-user-by-id (a method
of the user repository of package `repository`, absent from `router.go`). -/
def Store.findUserById (s : Store) (id : Nat) : Option User :=
  s.users.find? (fun u => u.id == id)

/-- Modelled from the spec: lookup of an activation-token record by its value
("look up token"; a method of the user repository, absent from `router.go`). -/
def Store.findToken (s : Store) (token : String) : Option ActivationToken :=
  s.tokens.find? (fun t => t.token == token)

/-- Modelled from the spec: the "unique identifier" the store gives a new user
(assigned inside package `repository`, absent from `router.go`): one above every
identifier in use. -/
def Store.freshId (s : Store) : Nat :=
  (s.users.map (fun u => u.id)).foldr max 0 + 1

/-- Modelled from the spec: CredentialStore operation
upsert-pending-user-with-token (a method of the user repository, absent from
`router.go`), one atomic unit: the record for the user's email is overwritten
(no duplicate), every earlier token of that user is replaced by the fresh one. -/
def Store.upsertPendingUserWithToken (s : Store) (u : User) (t : ActivationToken) : Store :=
  { users := s.users.filter (fun x => !(x.email == u.email)) ++ [u]
    tokens := s.tokens.filter (fun x => !(x.userId == u.id)) ++ [t] }

/-- Modelled from the spec: CredentialStore operation
atomic-consume-token-and-activate (a method of the user repository, absent from
`router.go`): marks the token consumed and sets the user Active with its
activation timestamp. -/
def Store.consumeTokenAndActivate (s : Store) (token : String) (userId now : Nat) : Store :=
  { users := s.users.map (fun u =>
      if u.id == userId then { u with status := .Active, activatedAt := some now } else u)
    tokens := s.tokens.map (fun t =>
      if t.token == token then { t with consumed := true } else t) }

/-- Modelled from the spec: deletion of a token on the expiry path ("token is
deleted/invalidated on this path too"; a method of the user repository, absent
from `router.go`). -/
def Store.deleteToken (s : Store) (token : String) : Store :=
  { s with tokens := s.tokens.filter (fun t => !(t.token == token)) }

/-- Modelled from the spec: the Pending user record a `PreRegister` persists
(built inside the usecase, absent from `router.go`): normalised email, salted
hash of the raw password, creation timestamp, no activation timestamp. -/
def pendingUser (d : Deps) (now : Nat) (rnd : Random) (email rawPassword : String) (id : Nat) :
    User :=
  { id := id, email := d.policy.normalize email,
    passwordHash := d.hasher.hash rnd.salt rawPassword,
    status := .Pending, createdAt := now, activatedAt := none }

/-- Modelled from the spec: the fresh ActivationToken a `PreRegister` persists
(built inside the usecase, absent from `router.go`): the drawn value, bound to
the user, issued now, expiring one TTL later, unconsumed. -/
def activationToken (d : Deps) (now : Nat) (rnd : Random) (id : Nat) : ActivationToken :=
  { token := rnd.token, userId := id, issuedAt := now,
    expiresAt := now + d.policy.ttl, consumed := false }

/-- Modelled from the spec: `PreRegister(email, rawPassword, displayFields)` of
section 4.1 (the usecase method behind `uh.PreRegister`, absent from
`router.go`).  Input errors are rejected before any store call; an Active
holder of the email gives `ErrEmailTaken`; a Pending holder is superseded under
its identifier; otherwise a new Pending user is created.  The pending record and
the fresh token are stored before the Notifier is invoked and stay when it
fails.  The display fields have no place in the persisted shape and are left out. -/
def PreRegister (d : Deps) (s : Store) (now : Nat) (rnd : Random) (email rawPassword : String) :
    Store × Except Err Unit :=
  if !(d.policy.validEmail email && d.policy.validPassword rawPassword) then
    (s, .error .ErrInvalidInput)
  else
    let id? : Option Nat :=
      match s.findUserByEmail (d.policy.normalize email) with
      | none => some s.freshId
      | some u => if u.status == .Active then none else some u.id
    match id? with
    | none => (s, .error .ErrEmailTaken)
    | some id =>
      let s1 := s.upsertPendingUserWithToken (pendingUser d now rnd email rawPassword id)
        (activationToken d now rnd id)
      if d.mailer.Send (d.policy.normalize email) rnd.token then (s1, .ok ())
      else (s1, .error .ErrNotifyFailed)

/-- Modelled from the spec: `Activate(token)` of section 4.1 (the usecase method
behind `uh.Activate`, absent from `router.go`): look up the token, refuse a
consumed one, load the bound user, verify it is Pending, verify the token is not
expired (an expired token is deleted), then consume the token and activate the
user in one step.  A token whose user is missing is treated as not found. -/
def Activate (s : Store) (now : Nat) (token : String) : Store × Except Err Nat :=
  match s.findToken token with
  | none => (s, .error .ErrTokenNotFound)
  | some t =>
    if t.consumed then (s, .error .ErrTokenAlreadyUsed)
    else
      match s.findUserById t.userId with
      | none => (s, .error .ErrTokenNotFound)
      | some u =>
        if u.status != .Pending then (s, .error .ErrAlreadyActive)
        else if t.expiresAt < now then (s.deleteToken token, .error .ErrTokenExpired)
        else (s.consumeTokenAndActivate token u.id now, .ok u.id)

/-- Modelled from the spec: `Login(email, rawPassword)` of section 4.2 (the
usecase method behind `uh.Login`, absent from `router.go`): load the user by
normalised email; absent, Pending and wrong password all give
`ErrInvalidCredentials`; otherwise the TokenSigner is called with the user's
identifier and the claims policy.  Login persists nothing, so it returns no store. -/
def Login (d : Deps) (s : Store) (email rawPassword : String) : Except Err String :=
  match s.findUserByEmail (d.policy.normalize email) with
  | none => .error .ErrInvalidCredentials
  | some u =>
    if u.status != .Active then .error .ErrInvalidCredentials
    else if !(d.hasher.compare rawPassword u.passwordHash) then .error .ErrInvalidCredentials
    else
      match d.jwter.Issue u.id d.policy.claims with
      | some tok => .ok tok
      | none => .error .ErrUpstream

/-- Modelled from the spec: the invariants of section 3 on the contents of the
store of package `repository` (absent from `router.go`): identifiers are unique,
emails are unique across all users, a token value is bound to one record, a
user has at most one token, and every token belongs to a stored user whose
status is Active exactly when the token is consumed. -/
def Store.WF (s : Store) : Prop :=
  (s.users.map (fun u => u.id)).Nodup ∧
  (s.users.map (fun u => u.email)).Nodup ∧
  (s.tokens.map (fun t => t.token)).Nodup ∧
  (s.tokens.map (fun t => t.userId)).Nodup ∧
  ∀ t ∈ s.tokens, ∃ u ∈ s.users, u.id = t.userId ∧ (t.consumed = true ↔ u.status = .Active)

instance (s : Store) : Decidable s.WF := by
  unfold Store.WF
  infer_instance

/-- Modelled from the spec: one request to the usecase (absent from
`router.go`), with the clock reading and the random draw it is served under
("each request is an independent unit of work"). -/
inductive Op where
  | preRegister (now : Nat) (rnd : Random) (email rawPassword : String)
  | activate (now : Nat) (token : String)
  | login (email rawPassword : String)
deriving DecidableEq, Repr

/-- Modelled from the spec: the store after the usecase (absent from
`router.go`) has served one request. -/
def step (d : Deps) (s : Store) : Op → Store
  | .preRegister now rnd email pw => (PreRegister d s now rnd email pw).1
  | .activate now token => (Activate s now token).1
  | .login _ _ => s

/-- Whether the random token a request draws is new to the store (always so for
requests that draw none). -/
def Op.fresh (s : Store) : Op → Bool
  | .preRegister _ rnd _ _ => (s.findToken rnd.token).isNone
  | _ => true

/-- The store after serving a sequence of requests in order. -/
def run (d : Deps) (s : Store) : List Op → Store
  | [] => s
  | op :: ops => run d (step d s op) ops

/-- Whether every request of a sequence draws a token new to the store it is
served on. -/
def freshRun (d : Deps) (s : Store) : List Op → Bool
  | [] => true
  | op :: ops => op.fresh s && freshRun d (step d s op) ops

/-- A password function for test doubles: the hash is the password itself. -/
def plainHasher : Hasher :=
  { hash := fun _ pw => pw
    compare := fun pw h => pw == h
    compare_hash := by intro _ pw; simp }

/-- Test doubles for the collaborators: a mailer that delivers iff `mailOk`, a
signer that issues `"jwt"` iff `signOk`, emails valid when they contain `@`,
passwords valid from 8 characters, tokens living 24 time units. -/
def testDeps (mailOk signOk : Bool) : Deps :=
  { mailer := ⟨fun _ _ => mailOk⟩
    jwter := ⟨fun _ _ => if signOk then some "jwt" else none⟩
    hasher := plainHasher
    policy :=
      { validEmail := fun e => e.data.contains '@'
        validPassword := fun p => decide (8 ≤ p.data.length)
        normalize := fun e => e
        ttl := 24
        claims := [] } }

/-- The store with no record. -/
def Store.empty : Store := ⟨[], []⟩

/-- The store after `PreRegister("a@x.com", "Secret123")` at time 0 with token
`"T"` on the empty store, under the test doubles: one Pending user, one
unconsumed token expiring at 24. -/
def pendingStore : Store :=
  { users := [⟨1, "a@x.com", "Secret123", .Pending, 0, none⟩]
    tokens := [⟨"T", 1, 0, 24, false⟩] }

/-- The store after `Activate("T")` at time 5 on `pendingStore`: the user is
Active, the token consumed. -/
def activeStore : Store :=
  { users := [⟨1, "a@x.com", "Secret123", .Active, 0, some 5⟩]
    tokens := [⟨"T", 1, 0, 24, true⟩] }

/-! ## Routing lemmas -/

theorem updateAt_snoc {α : Type} (f : α → α) (l : List α) (x : α) :
    updateAt f (l ++ [x]) l.length = l ++ [f x] := by
  induction l with
  | nil => rfl
  | cons y ys ih => simp [updateAt, ih]

theorem NewRouter_eq {DB Mailer Jwt UR UU UH : Type} (c : Constructors DB Mailer Jwt UR UU UH)
    (db : DB) (mailer : Mailer) (jwter : Jwt) (σ : Process (MethodValue UH)) :
    NewRouter c db mailer jwter σ
      = (σ.echos.length, ⟨σ.echos ++ [⟨NewRouter.table (NewRouter.uh c db mailer jwter)⟩]⟩) := by
  simp only [NewRouter, Echo.New, Echo.Group, Group.POST, Group.Add, updateAt_snoc]
  simp [Echo.add, NewRouter.table, NewRouter.uh, MethodPost]

theorem NewRouter_router_eq {DB Mailer Jwt UR UU UH : Type}
    (c : Constructors DB Mailer Jwt UR UU UH) (db : DB) (mailer : Mailer) (jwter : Jwt)
    (σ : Process (MethodValue UH)) :
    NewRouter.router c db mailer jwter σ
      = some ⟨NewRouter.table (NewRouter.uh c db mailer jwter)⟩ := by
  simp [NewRouter.router, NewRouter_eq, Process.deref]

theorem find_handler_iff {H : Type} (e : Echo H) (m p : String) (h : H) :
    e.find m p = .handler h ↔
      ∃ r, e.routes.find? (fun r => r.method == m && r.path == p) = some r ∧ r.handler = h := by
  unfold Echo.find
  split
  · next r hr => simp [hr]
  · next hr =>
    simp only [hr, false_and, exists_false, iff_false]
    split <;> simp

theorem find_table_iff {UH : Type} (uh : UH) (m p : String) (h : MethodValue UH) :
    Echo.find ⟨NewRouter.table uh⟩ m p = .handler h ↔
      m = "POST" ∧
        ((p = "/api/auth/register/initial" ∧ h = ⟨uh, .PreRegister⟩) ∨
         (p = "/api/auth/register/complete" ∧ h = ⟨uh, .Activate⟩) ∨
         (p = "/api/auth/login" ∧ h = ⟨uh, .Login⟩)) := by
  constructor
  · intro hf
    obtain ⟨r, hr, rfl⟩ := (find_handler_iff _ m p h).1 hf
    have hmem := List.mem_of_find?_eq_some hr
    have hp := List.find?_some hr
    simp only [Bool.and_eq_true, beq_iff_eq] at hp
    simp only [NewRouter.table, List.mem_cons, List.mem_singleton, List.not_mem_nil,
      or_false] at hmem
    rcases hmem with rfl | rfl | rfl
    · exact ⟨hp.1.symm, Or.inl ⟨hp.2.symm, rfl⟩⟩
    · exact ⟨hp.1.symm, Or.inr (Or.inl ⟨hp.2.symm, rfl⟩)⟩
    · exact ⟨hp.1.symm, Or.inr (Or.inr ⟨hp.2.symm, rfl⟩)⟩
  · rintro ⟨rfl, ⟨rfl, rfl⟩ | ⟨rfl, rfl⟩ | ⟨rfl, rfl⟩⟩ <;> rfl

/-- C1: for every db, mailer and jwter (and every process state), the router
returned by `NewRouter` has exactly three routes, all with method POST:
`/api/auth/register/initial` to the handler's PreRegister,
`/api/auth/register/complete` to its Activate and `/api/auth/login` to its Login;
each of the three operations is the target of exactly one route and no two
routes name the same operation. -/
theorem NewRouter_registers_three_post_routes {DB Mailer Jwt UR UU UH : Type}
    (c : Constructors DB Mailer Jwt UR UU UH) (db : DB) (mailer : Mailer) (jwter : Jwt)
    (σ : Process (MethodValue UH)) :
    ∃ e, NewRouter.router c db mailer jwter σ = some e ∧
      e.routes.length = 3 ∧
      (∀ r ∈ e.routes, r.method = MethodPost) ∧
      e.routes.map (fun r => (r.path, r.handler)) =
        [("/api/auth/register/initial", ⟨NewRouter.uh c db mailer jwter, .PreRegister⟩),
         ("/api/auth/register/complete", ⟨NewRouter.uh c db mailer jwter, .Activate⟩),
         ("/api/auth/login", ⟨NewRouter.uh c db mailer jwter, .Login⟩)] ∧
      (∀ op, (e.routes.filter (fun r => r.handler.name == op)).length = 1) ∧
      (e.routes.map (fun r => r.handler.name)).Nodup := by
  refine ⟨_, NewRouter_router_eq c db mailer jwter σ, rfl, ?_, rfl, ?_, ?_⟩
  · intro r hr
    simp only [NewRouter.table, List.mem_cons, List.mem_singleton, List.not_mem_nil, or_false] at hr
    rcases hr with rfl | rfl | rfl <;> rfl
  · intro op
    cases op <;> rfl
  · simp [NewRouter.table]

/-- C2: for every db, mailer and jwter, the receiver behind every registered
route is `NewUserHandler(NewUserUsecase(NewUserRepository(db), mailer, jwter))`:
the repository is made from the given db, the usecase from that repository and
the given mailer and jwter, the handler from that usecase; and the route table
is not empty. -/
theorem NewRouter_wires_given_collaborators {DB Mailer Jwt UR UU UH : Type}
    (c : Constructors DB Mailer Jwt UR UU UH) (db : DB) (mailer : Mailer) (jwter : Jwt)
    (σ : Process (MethodValue UH)) :
    ∃ e, NewRouter.router c db mailer jwter σ = some e ∧
      e.routes ≠ [] ∧
      ∀ r ∈ e.routes,
        r.handler.recv
          = c.NewUserHandler (c.NewUserUsecase (c.NewUserRepository db) mailer jwter) := by
  refine ⟨_, NewRouter_router_eq c db mailer jwter σ, by simp [NewRouter.table], ?_⟩
  intro r hr
  simp only [NewRouter.table, List.mem_cons, List.mem_singleton, List.not_mem_nil, or_false] at hr
  rcases hr with rfl | rfl | rfl <;> rfl

/-- C9: for every method m and path p, the router returned by `NewRouter`
dispatches to a handler exactly when m is POST and p is one of the three
registered paths (and then to the operation registered there); no request with
another method and no path that does not start with `/api/auth` reaches a
handler; the registered paths are static. -/
theorem NewRouter_matches_only_post_auth {DB Mailer Jwt UR UU UH : Type}
    (c : Constructors DB Mailer Jwt UR UU UH) (db : DB) (mailer : Mailer) (jwter : Jwt)
    (σ : Process (MethodValue UH)) :
    ∃ e, NewRouter.router c db mailer jwter σ = some e ∧
      (∀ m p h, e.find m p = .handler h ↔
        m = "POST" ∧
          ((p = "/api/auth/register/initial"
              ∧ h = ⟨NewRouter.uh c db mailer jwter, .PreRegister⟩) ∨
           (p = "/api/auth/register/complete"
              ∧ h = ⟨NewRouter.uh c db mailer jwter, .Activate⟩) ∨
           (p = "/api/auth/login" ∧ h = ⟨NewRouter.uh c db mailer jwter, .Login⟩))) ∧
      (∀ m p h, m ≠ "POST" → e.find m p ≠ .handler h) ∧
      (∀ m p h, ¬ ("/api/auth".data <+: p.data) → e.find m p ≠ .handler h) ∧
      (∀ r ∈ e.routes, hasPattern r.path = false) := by
  refine ⟨_, NewRouter_router_eq c db mailer jwter σ, ?_, ?_, ?_, ?_⟩
  · intro m p h
    exact find_table_iff _ m p h
  · intro m p h hm hf
    exact hm ((find_table_iff _ m p h).1 hf).1
  · intro m p h hp hf
    apply hp
    rcases ((find_table_iff _ m p h).1 hf).2 with ⟨rfl, _⟩ | ⟨rfl, _⟩ | ⟨rfl, _⟩
    · exact ⟨"/register/initial".data, rfl⟩
    · exact ⟨"/register/complete".data, rfl⟩
    · exact ⟨"/login".data, rfl⟩
  · intro r hr
    simp only [NewRouter.table, List.mem_cons, List.mem_singleton, List.not_mem_nil, or_false] at hr
    rcases hr with rfl | rfl | rfl <;> rfl

theorem Stateful_NewRouter_eq {W DB Mailer Jwt UR UU UH : Type}
    (c : Stateful.Constructors W DB Mailer Jwt UR UU UH)
    (db : DB) (mailer : Mailer) (jwter : Jwt) (σ : Stateful.Process W (MethodValue UH))
    (ur : UR) (uu : UU) (uh : UH) (w₁ w₂ w₃ : W)
    (h₁ : c.NewUserRepository db σ.world = (ur, w₁))
    (h₂ : c.NewUserUsecase ur mailer jwter w₁ = (uu, w₂))
    (h₃ : c.NewUserHandler uu w₂ = (uh, w₃)) :
    Stateful.NewRouter c db mailer jwter σ
      = (σ.routers.echos.length, ⟨⟨σ.routers.echos ++ [⟨NewRouter.table uh⟩]⟩, w₃⟩) := by
  simp only [Stateful.NewRouter, Echo.New, h₁, h₂, h₃, Echo.Group, Group.POST, Group.Add,
    updateAt_snoc]
  simp [Echo.add, NewRouter.table, MethodPost]

/-- With constructors that keep no memory the two embeddings of `NewRouter`
agree. -/
theorem Stateful_NewRouter_ofPure {W DB Mailer Jwt UR UU UH : Type}
    (c : Constructors DB Mailer Jwt UR UU UH) (db : DB) (mailer : Mailer) (jwter : Jwt)
    (ρ : Process (MethodValue UH)) (w : W) :
    Stateful.NewRouter (Stateful.ofPure c) db mailer jwter ⟨ρ, w⟩
      = ((NewRouter c db mailer jwter ρ).1, ⟨(NewRouter c db mailer jwter ρ).2, w⟩) := by
  rw [Stateful_NewRouter_eq (Stateful.ofPure c) db mailer jwter ⟨ρ, w⟩ _ _ _ w w w rfl rfl rfl,
    NewRouter_eq]
  rfl

theorem recording_allocating {DB Mailer Jwt : Type} :
    (Stateful.recording : Stateful.Constructors (List (Stateful.Obj DB Mailer Jwt))
      DB Mailer Jwt Nat Nat Nat).Allocating := by
  refine ⟨?_, ?_, ?_⟩ <;> intros <;>
    simp [Stateful.Fresh, Stateful.recording, Stateful.alloc]

theorem Stateful_NewRouter_alloc {O DB Mailer Jwt : Type}
    (c : Stateful.Constructors (List O) DB Mailer Jwt Nat Nat Nat) (hc : c.Allocating)
    (db : DB) (mailer : Mailer) (jwter : Jwt)
    (σ : Stateful.Process (List O) (MethodValue Nat)) :
    ∃ ur uu uh w₁ w₂ w₃,
      c.NewUserRepository db σ.world = (ur, w₁) ∧
      c.NewUserUsecase ur mailer jwter w₁ = (uu, w₂) ∧
      c.NewUserHandler uu w₂ = (uh, w₃) ∧
      Stateful.NewRouter c db mailer jwter σ
        = (σ.routers.echos.length, ⟨⟨σ.routers.echos ++ [⟨NewRouter.table uh⟩]⟩, w₃⟩) ∧
      σ.world.length ≤ ur ∧ ur < uu ∧ uu < uh ∧ uh < w₃.length ∧ σ.world <+: w₃ := by
  rcases h₁ : c.NewUserRepository db σ.world with ⟨ur, w₁⟩
  rcases h₂ : c.NewUserUsecase ur mailer jwter w₁ with ⟨uu, w₂⟩
  rcases h₃ : c.NewUserHandler uu w₂ with ⟨uh, w₃⟩
  have f₁ := hc.1 db σ.world
  have f₂ := hc.2.1 ur mailer jwter w₁
  have f₃ := hc.2.2 uu w₂
  rw [h₁] at f₁
  rw [h₂] at f₂
  rw [h₃] at f₃
  obtain ⟨a₁, b₁, p₁⟩ := f₁
  obtain ⟨a₂, b₂, p₂⟩ := f₂
  obtain ⟨a₃, b₃, p₃⟩ := f₃
  dsimp only at a₁ b₁ p₁ a₂ b₂ p₂ a₃ b₃ p₃
  refine ⟨ur, uu, uh, w₁, w₂, w₃, rfl, h₂, h₃,
    Stateful_NewRouter_eq c db mailer jwter σ ur uu uh w₁ w₂ w₃ h₁ h₂ h₃,
    a₁, by omega, by omega, b₃, (p₁.trans p₂).trans p₃⟩

/-- C10: with constructors that return pointers to newly allocated objects, a
call of `NewRouter` allocates one new router and touches no router and no
object that already exists; it calls each constructor once, on its own
arguments and the result of the constructor before, so the repository, the
usecase and the handler of the call are three new, distinct objects; all three
routes hold that one handler object; the methods, paths and operations of the
returned router do not depend on the process state; and a second call with the
same arguments returns another router whose routes hold another handler. -/
theorem NewRouter_no_shared_state {O DB Mailer Jwt : Type}
    (c : Stateful.Constructors (List O) DB Mailer Jwt Nat Nat Nat) (hc : c.Allocating)
    (db : DB) (mailer : Mailer) (jwter : Jwt)
    (σ σ' : Stateful.Process (List O) (MethodValue Nat)) :
    σ.routers.deref (Stateful.NewRouter c db mailer jwter σ).1 = none ∧
    (Stateful.NewRouter c db mailer jwter σ).2.routers.echos.length
      = σ.routers.echos.length + 1 ∧
    (∀ p e, σ.routers.deref p = some e →
      (Stateful.NewRouter c db mailer jwter σ).2.routers.deref p = some e) ∧
    σ.world <+: (Stateful.NewRouter c db mailer jwter σ).2.world ∧
    (∃ ur uu uh w₁ w₂,
      c.NewUserRepository db σ.world = (ur, w₁) ∧
      c.NewUserUsecase ur mailer jwter w₁ = (uu, w₂) ∧
      c.NewUserHandler uu w₂ = (uh, (Stateful.NewRouter c db mailer jwter σ).2.world) ∧
      σ.world.length ≤ ur ∧ ur < uu ∧ uu < uh ∧
      uh < (Stateful.NewRouter c db mailer jwter σ).2.world.length ∧
      Stateful.NewRouter.router c db mailer jwter σ = some ⟨NewRouter.table uh⟩ ∧
      ∀ r ∈ NewRouter.table uh, r.handler.recv = uh) ∧
    (Stateful.NewRouter.router c db mailer jwter σ).map (fun e => e.routes.map Route.shape)
      = (Stateful.NewRouter.router c db mailer jwter σ').map
          (fun e => e.routes.map Route.shape) ∧
    (Stateful.NewRouter c db mailer jwter (Stateful.NewRouter c db mailer jwter σ).2).1
      ≠ (Stateful.NewRouter c db mailer jwter σ).1 ∧
    (∃ e₁ e₂, Stateful.NewRouter.router c db mailer jwter σ = some e₁ ∧
      Stateful.NewRouter.router c db mailer jwter
        (Stateful.NewRouter c db mailer jwter σ).2 = some e₂ ∧
      e₁.routes ≠ [] ∧ e₂.routes ≠ [] ∧
      ∀ r₁ ∈ e₁.routes, ∀ r₂ ∈ e₂.routes, r₁.handler.recv < r₂.handler.recv) := by
  obtain ⟨ur, uu, uh, w₁, w₂, w₃, h₁, h₂, h₃, heq, a₁, a₂, a₃, a₄, hpre⟩ :=
    Stateful_NewRouter_alloc c hc db mailer jwter σ
  obtain ⟨ur', uu', uh', v₁, v₂, v₃, _, _, _, heq', _, _, _, _, _⟩ :=
    Stateful_NewRouter_alloc c hc db mailer jwter σ'
  obtain ⟨ur₂, uu₂, uh₂, x₁, x₂, x₃, _, _, _, heq₂, b₁, b₂, b₃, _, _⟩ :=
    Stateful_NewRouter_alloc c hc db mailer jwter (Stateful.NewRouter c db mailer jwter σ).2
  have hrecv : ∀ (n : Nat), ∀ r ∈ NewRouter.table n, r.handler.recv = n := by
    intro n r hr
    simp only [NewRouter.table, List.mem_cons, List.mem_singleton, List.not_mem_nil,
      or_false] at hr
    rcases hr with rfl | rfl | rfl <;> rfl
  have hr₁ : Stateful.NewRouter.router c db mailer jwter σ = some ⟨NewRouter.table uh⟩ := by
    simp [Stateful.NewRouter.router, heq, Process.deref]
  have hr' : Stateful.NewRouter.router c db mailer jwter σ' = some ⟨NewRouter.table uh'⟩ := by
    simp [Stateful.NewRouter.router, heq', Process.deref]
  have hr₂ : Stateful.NewRouter.router c db mailer jwter
      (Stateful.NewRouter c db mailer jwter σ).2 = some ⟨NewRouter.table uh₂⟩ := by
    simp [Stateful.NewRouter.router, heq₂, Process.deref]
  refine ⟨?_, ?_, ?_, ?_, ?_, ?_, ?_, ?_⟩
  · simp [heq, Process.deref]
  · simp [heq]
  · intro p e hp
    simp only [Process.deref] at hp
    have hlt : p < σ.routers.echos.length := by
      by_contra hge
      rw [List.getElem?_eq_none (Nat.le_of_not_lt hge)] at hp
      exact Option.noConfusion hp
    simp [heq, Process.deref, List.getElem?_append_left hlt, hp]
  · rw [heq]; exact hpre
  · refine ⟨ur, uu, uh, w₁, w₂, h₁, h₂, ?_, a₁, a₂, a₃, ?_, hr₁, hrecv uh⟩
    · rw [heq]; exact h₃
    · rw [heq]; exact a₄
  · rw [hr₁, hr']
    rfl
  · rw [heq₂, heq]
    simp
  · refine ⟨_, _, hr₁, hr₂, by simp [NewRouter.table], by simp [NewRouter.table], ?_⟩
    intro r₁ m₁ r₂ m₂
    rw [hrecv uh r₁ m₁, hrecv uh₂ r₂ m₂]
    rw [heq] at b₁
    dsimp only at b₁
    omega

/-- Two calls with constructors that allocate one object each, from the empty
process: the first makes router 0 and the objects 0, 1, 2 and mounts handler 2
on all three routes; the second makes router 1 and the objects 3, 4, 5 and
mounts handler 5. -/
theorem NewRouter_no_shared_state_witness :
    Stateful.NewRouter (Stateful.recording : Stateful.Constructors
        (List (Stateful.Obj String String String)) String String String Nat Nat Nat)
        "db" "mailer" "jwter" ⟨⟨[]⟩, []⟩
      = (0, ⟨⟨[⟨NewRouter.table 2⟩]⟩,
          [.userRepository "db", .userUsecase 0 "mailer" "jwter", .userHandler 1]⟩) ∧
    Stateful.NewRouter (Stateful.recording : Stateful.Constructors
        (List (Stateful.Obj String String String)) String String String Nat Nat Nat)
        "db" "mailer" "jwter"
        ⟨⟨[⟨NewRouter.table 2⟩]⟩,
          [.userRepository "db", .userUsecase 0 "mailer" "jwter", .userHandler 1]⟩
      = (1, ⟨⟨[⟨NewRouter.table 2⟩, ⟨NewRouter.table 5⟩]⟩,
          [.userRepository "db", .userUsecase 0 "mailer" "jwter", .userHandler 1,
           .userRepository "db", .userUsecase 3 "mailer" "jwter", .userHandler 4]⟩) ∧
    (Stateful.NewRouter (Stateful.recording : Stateful.Constructors
        (List (Stateful.Obj String String String)) String String String Nat Nat Nat)
        "db" "mailer" "jwter"
        (Stateful.NewRouter (Stateful.recording : Stateful.Constructors
          (List (Stateful.Obj String String String)) String String String Nat Nat Nat)
          "db" "mailer" "jwter" ⟨⟨[]⟩, []⟩).2).1
      ≠ (Stateful.NewRouter (Stateful.recording : Stateful.Constructors
          (List (Stateful.Obj String String String)) String String String Nat Nat Nat)
          "db" "mailer" "jwter" ⟨⟨[]⟩, []⟩).1 :=
  ⟨by decide, by decide,
    (NewRouter_no_shared_state (Stateful.recording : Stateful.Constructors
        (List (Stateful.Obj String String String)) String String String Nat Nat Nat)
      recording_allocating "db" "mailer" "jwter" ⟨⟨[]⟩, []⟩ ⟨⟨[]⟩, []⟩).2.2.2.2.2.2.1⟩

/-- C8 fails as stated: the parameter `jwter` of `NewRouter` is declared
`*auth.JwtBuilder`, and that type is not an interface type even when every named
type is taken to be declared as an interface. -/
theorem NewRouter_jwter_not_interface :
    NewRouter.paramType "jwter" = some (.pointer (.named "auth" "JwtBuilder")) ∧
    (NewRouter.paramType "jwter").map (GoType.isInterface (fun _ _ => true)) = some false := by
  decide

/-- C8 as amended: `mailer` is declared with the named type `mail.IMailer`, an
interface type exactly when package `mail` declares it as one; `jwter` is
declared `*auth.JwtBuilder` (and `db` `*sqlx.DB`), a pointer type, which is an
interface type under no declarations. -/
theorem NewRouter_collaborator_types (declaredInterface : String → String → Bool) :
    NewRouter.params.map (fun p => p.1) = ["db", "mailer", "jwter"] ∧
    (NewRouter.paramType "mailer").map (GoType.isInterface declaredInterface)
      = some (declaredInterface "mail" "IMailer") ∧
    (NewRouter.paramType "jwter").map (GoType.isInterface declaredInterface) = some false ∧
    (NewRouter.paramType "db").map (GoType.isInterface declaredInterface) = some false := by
  have hm : NewRouter.paramType "mailer" = some (.named "mail" "IMailer") := by decide
  have hj : NewRouter.paramType "jwter" = some (.pointer (.named "auth" "JwtBuilder")) := by
    decide
  have hd : NewRouter.paramType "db" = some (.pointer (.named "sqlx" "DB")) := by decide
  rw [hm, hj, hd]
  exact ⟨by decide, rfl, rfl, rfl⟩

/-! ## Store lemmas -/

theorem find?_key_of_mem {α κ : Type} [DecidableEq κ] (key : α → κ) (l : List α)
    (h : (l.map key).Nodup) (x : α) (hx : x ∈ l) :
    l.find? (fun y => key y == key x) = some x := by
  induction l with
  | nil => cases hx
  | cons a as ih =>
    rw [List.map_cons, List.nodup_cons] at h
    rcases List.mem_cons.1 hx with rfl | hmem
    · simp [List.find?_cons]
    · have hne : key a ≠ key x := by
        intro heq
        exact h.1 (heq ▸ List.mem_map_of_mem key hmem)
      simp [List.find?_cons, hne, ih h.2 hmem]

theorem nodup_map_filter_snoc {α κ : Type} (key : α → κ) (p : α → Bool) (l : List α) (x : α)
    (h : (l.map key).Nodup) (hx : ∀ y ∈ l, p y = true → key y ≠ key x) :
    ((l.filter p ++ [x]).map key).Nodup := by
  rw [List.map_append, List.nodup_append]
  refine ⟨h.sublist ((List.filter_sublist l).map key), by simp, ?_⟩
  intro k hk hk2
  simp only [List.map_cons, List.map_nil, List.mem_singleton] at hk2
  obtain ⟨y, hy, rfl⟩ := List.mem_map.1 hk
  rw [List.mem_filter] at hy
  exact hx y hy.1 hy.2 hk2

theorem lt_freshId (s : Store) (u : User) (hu : u ∈ s.users) : u.id < s.freshId := by
  unfold Store.freshId
  generalize s.users = l at hu
  induction l with
  | nil => cases hu
  | cons a as ih =>
    simp only [List.map_cons, List.foldr_cons]
    rcases List.mem_cons.1 hu with rfl | hmem
    · omega
    · have := ih hmem
      omega

theorem findUserByEmail_some {s : Store} {e : String} {u : User}
    (h : s.findUserByEmail e = some u) : u ∈ s.users ∧ u.email = e := by
  refine ⟨List.mem_of_find?_eq_some h, ?_⟩
  simpa using List.find?_some h

theorem findUserById_some {s : Store} {id : Nat} {u : User}
    (h : s.findUserById id = some u) : u ∈ s.users ∧ u.id = id := by
  refine ⟨List.mem_of_find?_eq_some h, ?_⟩
  simpa using List.find?_some h

theorem findToken_some {s : Store} {tok : String} {t : ActivationToken}
    (h : s.findToken tok = some t) : t ∈ s.tokens ∧ t.token = tok := by
  refine ⟨List.mem_of_find?_eq_some h, ?_⟩
  simpa using List.find?_some h

theorem findToken_none {s : Store} {tok : String} (h : s.findToken tok = none) :
    ∀ t ∈ s.tokens, t.token ≠ tok := by
  intro t ht
  simpa using List.find?_eq_none.1 h t ht

theorem findUserByEmail_none {s : Store} {e : String} (h : s.findUserByEmail e = none) :
    ∀ u ∈ s.users, u.email ≠ e := by
  intro u hu
  simpa using List.find?_eq_none.1 h u hu

theorem Store.WF.findToken_of_mem {s : Store} (hwf : s.WF) {t : ActivationToken} (ht : t ∈ s.tokens) :
    s.findToken t.token = some t :=
  find?_key_of_mem (fun t : ActivationToken => t.token) s.tokens hwf.2.2.1 t ht

theorem Store.WF.findUserById_of_mem {s : Store} (hwf : s.WF) {u : User} (hu : u ∈ s.users) :
    s.findUserById u.id = some u :=
  find?_key_of_mem (fun u : User => u.id) s.users hwf.1 u hu

theorem Store.WF.findUserByEmail_of_mem {s : Store} (hwf : s.WF) {u : User} (hu : u ∈ s.users) :
    s.findUserByEmail u.email = some u :=
  find?_key_of_mem (fun u : User => u.email) s.users hwf.2.1 u hu

/-- In a well-formed store the user a token is bound to can be loaded, and is
Active exactly when the token is consumed. -/
theorem Store.WF.bound_user {s : Store} (hwf : s.WF) {t : ActivationToken} (ht : t ∈ s.tokens) :
    ∃ u, s.findUserById t.userId = some u ∧ u ∈ s.users ∧ u.id = t.userId ∧
      (t.consumed = true ↔ u.status = .Active) := by
  obtain ⟨u, hu, hid, hiff⟩ := hwf.2.2.2.2 t ht
  exact ⟨u, hid ▸ hwf.findUserById_of_mem hu, hu, hid, hiff⟩

theorem upsert_WF (s : Store) (u : User) (t : ActivationToken) (hwf : s.WF)
    (hid : ∀ x ∈ s.users, x.id = u.id → x.email = u.email)
    (hem : ∀ x ∈ s.users, x.email = u.email → x.id = u.id)
    (htok : ∀ y ∈ s.tokens, y.token ≠ t.token)
    (htu : t.userId = u.id) (hc : t.consumed = false) (hs : u.status = .Pending) :
    (s.upsertPendingUserWithToken u t).WF := by
  obtain ⟨h1, h2, h3, h4, h5⟩ := hwf
  refine ⟨?_, ?_, ?_, ?_, ?_⟩
  · apply nodup_map_filter_snoc _ _ _ _ h1
    intro y hy hp hk
    simp only [Bool.not_eq_true', beq_eq_false_iff_ne, ne_eq] at hp
    exact hp (hid y hy hk)
  · apply nodup_map_filter_snoc _ _ _ _ h2
    intro y _ hp hk
    simp only [Bool.not_eq_true', beq_eq_false_iff_ne, ne_eq] at hp
    exact hp hk
  · apply nodup_map_filter_snoc _ _ _ _ h3
    intro y hy _ hk
    exact htok y hy hk
  · apply nodup_map_filter_snoc _ _ _ _ h4
    intro y _ hp hk
    simp only [Bool.not_eq_true', beq_eq_false_iff_ne, ne_eq] at hp
    exact hp (hk.trans htu)
  · intro y hy
    simp only [Store.upsertPendingUserWithToken, List.mem_append, List.mem_filter,
      List.mem_singleton, Bool.not_eq_true', beq_eq_false_iff_ne, ne_eq] at hy ⊢
    rcases hy with ⟨hy, hne⟩ | rfl
    · obtain ⟨w, hw, hwid, hiff⟩ := h5 y hy
      refine ⟨w, Or.inl ⟨hw, ?_⟩, hwid, hiff⟩
      intro he
      exact hne (hwid ▸ hem w hw he)
    · refine ⟨u, Or.inr rfl, htu.symm, ?_⟩
      simp [hc, hs]

/-- The identifier a `PreRegister` with valid input stores under: a new one for
an unused email, the holder's for a Pending holder, none for an Active holder. -/
theorem PreRegister_eq (d : Deps) (s : Store) (now : Nat) (rnd : Random) (email pw : String)
    (hv : d.policy.validEmail email = true) (hp : d.policy.validPassword pw = true) (id : Nat)
    (hid : (s.findUserByEmail (d.policy.normalize email) = none ∧ id = s.freshId) ∨
      (∃ u, s.findUserByEmail (d.policy.normalize email) = some u ∧ u.status = .Pending
        ∧ id = u.id)) :
    PreRegister d s now rnd email pw =
      (s.upsertPendingUserWithToken (pendingUser d now rnd email pw id)
          (activationToken d now rnd id),
        if d.mailer.Send (d.policy.normalize email) rnd.token then .ok ()
        else .error .ErrNotifyFailed) := by
  unfold PreRegister
  rcases hid with ⟨hnone, rfl⟩ | ⟨u, hsome, hst, rfl⟩
  · cases hm : d.mailer.Send (d.policy.normalize email) rnd.token <;>
      simp [hv, hp, hnone, hm]
  · cases hm : d.mailer.Send (d.policy.normalize email) rnd.token <;>
      simp [hv, hp, hsome, hst, hm]

theorem PreRegister_cases (d : Deps) (s : Store) (now : Nat) (rnd : Random) (email pw : String) :
    (PreRegister d s now rnd email pw).1 = s ∨
    ∃ id, d.policy.validEmail email = true ∧ d.policy.validPassword pw = true ∧
      ((s.findUserByEmail (d.policy.normalize email) = none ∧ id = s.freshId) ∨
        (∃ u, s.findUserByEmail (d.policy.normalize email) = some u ∧ u.status = .Pending
          ∧ id = u.id)) := by
  by_cases hv : d.policy.validEmail email = true
  · by_cases hp : d.policy.validPassword pw = true
    · cases hf : s.findUserByEmail (d.policy.normalize email) with
      | none => exact Or.inr ⟨s.freshId, hv, hp, Or.inl ⟨rfl, rfl⟩⟩
      | some u =>
        cases hst : u.status with
        | Pending => exact Or.inr ⟨u.id, hv, hp, Or.inr ⟨u, rfl, hst, rfl⟩⟩
        | Active =>
          left
          simp [PreRegister, hv, hp, hf, hst]
    · left
      simp [PreRegister, hp]
  · left
    simp [PreRegister, hv]

/-- A `PreRegister` that draws a token new to a well-formed store leaves a
well-formed store. -/
theorem PreRegister_WF (d : Deps) (s : Store) (now : Nat) (rnd : Random) (email pw : String)
    (hwf : s.WF) (hfresh : s.findToken rnd.token = none) :
    (PreRegister d s now rnd email pw).1.WF := by
  rcases PreRegister_cases d s now rnd email pw with h | ⟨id, hv, hp, hid⟩
  · rw [h]; exact hwf
  · rw [PreRegister_eq d s now rnd email pw hv hp id hid]
    apply upsert_WF s _ _ hwf
    · intro x hx hxid
      rcases hid with ⟨_, rfl⟩ | ⟨u, hsome, _, rfl⟩
      · have := lt_freshId s x hx
        simp only [pendingUser] at hxid
        omega
      · obtain ⟨hu, hue⟩ := findUserByEmail_some hsome
        have : x = u := List.inj_on_of_nodup_map hwf.1 hx hu hxid
        subst this
        exact hue
    · intro x hx hxe
      rcases hid with ⟨hnone, rfl⟩ | ⟨u, hsome, _, rfl⟩
      · exact absurd hxe (findUserByEmail_none hnone x hx)
      · obtain ⟨hu, hue⟩ := findUserByEmail_some hsome
        have : x = u := List.inj_on_of_nodup_map hwf.2.1 hx hu (hxe.trans hue.symm)
        subst this
        rfl
    · exact findToken_none hfresh
    · rfl
    · rfl
    · rfl

theorem Activate_cases (s : Store) (now : Nat) (tok : String) :
    (∃ e, Activate s now tok = (s, .error e) ∧ e ≠ .ErrTokenExpired) ∨
    ∃ t u, s.findToken tok = some t ∧ t.consumed = false ∧
      s.findUserById t.userId = some u ∧ u.status = .Pending ∧
      ((t.expiresAt < now ∧ Activate s now tok = (s.deleteToken tok, .error .ErrTokenExpired)) ∨
       (¬ t.expiresAt < now ∧
          Activate s now tok = (s.consumeTokenAndActivate tok u.id now, .ok u.id))) := by
  cases hf : s.findToken tok with
  | none => exact Or.inl ⟨.ErrTokenNotFound, by simp [Activate, hf], by decide⟩
  | some t =>
    cases hc : t.consumed with
    | true => exact Or.inl ⟨.ErrTokenAlreadyUsed, by simp [Activate, hf, hc], by decide⟩
    | false =>
      cases hu : s.findUserById t.userId with
      | none => exact Or.inl ⟨.ErrTokenNotFound, by simp [Activate, hf, hc, hu], by decide⟩
      | some u =>
        cases hst : u.status with
        | Active =>
          exact Or.inl ⟨.ErrAlreadyActive, by simp [Activate, hf, hc, hu, hst], by decide⟩
        | Pending =>
          refine Or.inr ⟨t, u, rfl, hc, hu, hst, ?_⟩
          by_cases hexp : t.expiresAt < now
          · exact Or.inl ⟨hexp, by simp [Activate, hf, hc, hu, hst, hexp]⟩
          · exact Or.inr ⟨hexp, by simp [Activate, hf, hc, hu, hst, hexp]⟩

theorem deleteToken_WF (s : Store) (tok : String) (hwf : s.WF) : (s.deleteToken tok).WF := by
  obtain ⟨h1, h2, h3, h4, h5⟩ := hwf
  refine ⟨h1, h2, h3.sublist ((List.filter_sublist _).map _),
    h4.sublist ((List.filter_sublist _).map _), ?_⟩
  intro t ht
  exact h5 t (List.mem_filter.1 ht).1

theorem consume_WF (s : Store) (tok : String) (now : Nat) (t : ActivationToken) (hwf : s.WF)
    (ht : s.findToken tok = some t) :
    (s.consumeTokenAndActivate tok t.userId now).WF := by
  obtain ⟨htm, htt⟩ := findToken_some ht
  obtain ⟨h1, h2, h3, h4, h5⟩ := hwf
  have e1 : ∀ l : List User, (l.map (fun u => if u.id == t.userId
      then { u with status := Status.Active, activatedAt := some now } else u)).map
        (fun u => u.id) = l.map (fun u => u.id) := by
    intro l
    rw [List.map_map]
    apply List.map_congr_left
    intro u _
    simp only [Function.comp]
    split <;> rfl
  have e2 : ∀ l : List User, (l.map (fun u => if u.id == t.userId
      then { u with status := Status.Active, activatedAt := some now } else u)).map
        (fun u => u.email) = l.map (fun u => u.email) := by
    intro l
    rw [List.map_map]
    apply List.map_congr_left
    intro u _
    simp only [Function.comp]
    split <;> rfl
  have e3 : ∀ l : List ActivationToken, (l.map (fun x => if x.token == tok
      then { x with consumed := true } else x)).map (fun x => x.token)
        = l.map (fun x => x.token) := by
    intro l
    rw [List.map_map]
    apply List.map_congr_left
    intro u _
    simp only [Function.comp]
    split <;> rfl
  have e4 : ∀ l : List ActivationToken, (l.map (fun x => if x.token == tok
      then { x with consumed := true } else x)).map (fun x => x.userId)
        = l.map (fun x => x.userId) := by
    intro l
    rw [List.map_map]
    apply List.map_congr_left
    intro u _
    simp only [Function.comp]
    split <;> rfl
  refine ⟨?_, ?_, ?_, ?_, ?_⟩
  · simp only [Store.consumeTokenAndActivate, e1]; exact h1
  · simp only [Store.consumeTokenAndActivate, e2]; exact h2
  · simp only [Store.consumeTokenAndActivate, e3]; exact h3
  · simp only [Store.consumeTokenAndActivate, e4]; exact h4
  · intro y hy
    simp only [Store.consumeTokenAndActivate, List.mem_map] at hy ⊢
    obtain ⟨x, hx, rfl⟩ := hy
    obtain ⟨w, hw, hwid, hiff⟩ := h5 x hx
    refine ⟨_, ⟨w, hw, rfl⟩, ?_⟩
    by_cases hxt : x.token = tok
    · have hxeq : x = t := List.inj_on_of_nodup_map h3 hx htm (hxt.trans htt.symm)
      subst hxeq
      simp [hxt, hwid]
    · have hne : w.id ≠ t.userId := by
        intro he
        have : x = t := List.inj_on_of_nodup_map h4 hx htm (hwid.symm.trans he)
        exact hxt (this ▸ htt)
      rw [if_neg (by simpa using hne), if_neg (by simpa using hxt)]
      exact ⟨hwid, hiff⟩

/-- Every `Activate` leaves a well-formed store well-formed. -/
theorem Activate_WF (s : Store) (now : Nat) (tok : String) (hwf : s.WF) :
    (Activate s now tok).1.WF := by
  rcases Activate_cases s now tok with ⟨e, h, _⟩ | ⟨t, u, ht, _, hu, _, ⟨_, h⟩ | ⟨_, h⟩⟩
  · rw [h]; exact hwf
  · rw [h]; exact deleteToken_WF s tok hwf
  · rw [h, (findUserById_some hu).2]; exact consume_WF s tok now t hwf ht

/-! ## Lookups after the store operations -/

theorem upsert_findToken_new (s : Store) (u : User) (t : ActivationToken)
    (htok : ∀ y ∈ s.tokens, y.token ≠ t.token) :
    (s.upsertPendingUserWithToken u t).findToken t.token = some t := by
  have hnone : (s.tokens.filter (fun x => !(x.userId == u.id))).find?
      (fun x => x.token == t.token) = none := by
    rw [List.find?_eq_none]
    intro y hy
    simpa using htok y (List.mem_filter.1 hy).1
  simp [Store.findToken, Store.upsertPendingUserWithToken, List.find?_append, hnone]

theorem upsert_findToken_old (s : Store) (u : User) (t t₀ : ActivationToken)
    (hnd : (s.tokens.map (fun t => t.token)).Nodup) (ht₀ : t₀ ∈ s.tokens)
    (hu : t₀.userId = u.id) (hne : t.token ≠ t₀.token) :
    (s.upsertPendingUserWithToken u t).findToken t₀.token = none := by
  have hnone : (s.tokens.filter (fun x => !(x.userId == u.id))).find?
      (fun x => x.token == t₀.token) = none := by
    rw [List.find?_eq_none]
    intro y hy hyt
    obtain ⟨hym, hyu⟩ := List.mem_filter.1 hy
    have : y = t₀ := List.inj_on_of_nodup_map hnd hym ht₀ (by simpa using hyt)
    subst this
    simp [hu] at hyu
  simp [Store.findToken, Store.upsertPendingUserWithToken, List.find?_append, hnone, hne]

theorem upsert_findUserById (s : Store) (u : User) (t : ActivationToken)
    (hid : ∀ x ∈ s.users, x.id = u.id → x.email = u.email) :
    (s.upsertPendingUserWithToken u t).findUserById u.id = some u := by
  have hnone : (s.users.filter (fun x => !(x.email == u.email))).find?
      (fun x => x.id == u.id) = none := by
    rw [List.find?_eq_none]
    intro y hy hyid
    obtain ⟨hym, hye⟩ := List.mem_filter.1 hy
    simp [hid y hym (by simpa using hyid)] at hye
  simp [Store.findUserById, Store.upsertPendingUserWithToken, List.find?_append, hnone]

theorem upsert_findUserByEmail (s : Store) (u : User) (t : ActivationToken) :
    (s.upsertPendingUserWithToken u t).findUserByEmail u.email = some u := by
  have hnone : (s.users.filter (fun x => !(x.email == u.email))).find?
      (fun x => x.email == u.email) = none := by
    rw [List.find?_eq_none]
    intro y hy hye
    simp [hye] at hy
  simp [Store.findUserByEmail, Store.upsertPendingUserWithToken, List.find?_append, hnone]

theorem upsert_count_email (s : Store) (u : User) (t : ActivationToken) :
    (s.upsertPendingUserWithToken u t).users.countP (fun x => x.email == u.email) = 1 := by
  have h0 : (s.users.filter (fun x => !(x.email == u.email))).countP
      (fun x => x.email == u.email) = 0 := by
    rw [List.countP_eq_zero]
    intro y hy hye
    simp [hye] at hy
  simp [Store.upsertPendingUserWithToken, List.countP_append, h0]

theorem consume_findUserByEmail (s : Store) (tok : String) (uid now : Nat) (e : String)
    (u : User) (h : s.findUserByEmail e = some u) :
    (s.consumeTokenAndActivate tok uid now).findUserByEmail e =
      some (if u.id == uid then { u with status := .Active, activatedAt := some now } else u) := by
  simp only [Store.findUserByEmail, Store.consumeTokenAndActivate, List.find?_map] at h ⊢
  have hfun : ((fun x : User => x.email == e) ∘ fun x : User =>
      if x.id == uid then { x with status := Status.Active, activatedAt := some now } else x)
      = fun x : User => x.email == e := by
    funext x
    simp only [Function.comp]
    split <;> rfl
  rw [hfun, h]
  rfl

/-- After a `PreRegister` with valid input that stored under `id`, `Activate`
with the drawn token within its lifetime consumes it and activates that user. -/
theorem Activate_after_upsert (s : Store) (u : User) (t : ActivationToken) (now : Nat)
    (hid : ∀ x ∈ s.users, x.id = u.id → x.email = u.email)
    (htok : ∀ y ∈ s.tokens, y.token ≠ t.token)
    (htu : t.userId = u.id) (hc : t.consumed = false) (hs : u.status = .Pending)
    (hexp : ¬ t.expiresAt < now) :
    Activate (s.upsertPendingUserWithToken u t) now t.token =
      ((s.upsertPendingUserWithToken u t).consumeTokenAndActivate t.token u.id now, .ok u.id) := by
  have h1 := upsert_findToken_new s u t htok
  have h2 := upsert_findUserById s u t hid
  rw [← htu] at h2
  simp [Activate, h1, h2, hc, hs, hexp]

theorem Login_ok (d : Deps) (s : Store) (email pw : String) (u : User) (jwt : String)
    (hfind : s.findUserByEmail (d.policy.normalize email) = some u)
    (hs : u.status = .Active) (hc : d.hasher.compare pw u.passwordHash = true)
    (hj : d.jwter.Issue u.id d.policy.claims = some jwt) :
    Login d s email pw = .ok jwt := by
  simp [Login, hfind, hs, hc, hj]

/-! ## A consumed token stays consumed -/

theorem Activate_of_consumed (s : Store) (now : Nat) (tok : String) (hwf : s.WF)
    (hc : ∃ t ∈ s.tokens, t.token = tok ∧ t.consumed = true) :
    Activate s now tok = (s, .error .ErrTokenAlreadyUsed) := by
  obtain ⟨t, ht, rfl, hcons⟩ := hc
  simp [Activate, hwf.findToken_of_mem ht, hcons]

theorem Activate_ok_consumes (s : Store) (now : Nat) (tok : String) (uid : Nat)
    (h : (Activate s now tok).2 = .ok uid) :
    ∃ t ∈ (Activate s now tok).1.tokens, t.token = tok ∧ t.consumed = true := by
  rcases Activate_cases s now tok with ⟨e, he, _⟩ | ⟨t, u, ht, _, _, _, ⟨_, he⟩ | ⟨_, he⟩⟩
  · rw [he] at h; cases h
  · rw [he] at h; cases h
  · rw [he]
    obtain ⟨htm, htt⟩ := findToken_some ht
    refine ⟨{ t with consumed := true }, ?_, htt, rfl⟩
    simp only [Store.consumeTokenAndActivate, List.mem_map]
    exact ⟨t, htm, by simp [htt]⟩

theorem step_keeps_consumed (d : Deps) (s : Store) (op : Op) (tok : String) (hwf : s.WF)
    (hfr : op.fresh s = true)
    (hc : ∃ t ∈ s.tokens, t.token = tok ∧ t.consumed = true) :
    (step d s op).WF ∧ ∃ t ∈ (step d s op).tokens, t.token = tok ∧ t.consumed = true := by
  obtain ⟨t, ht, htt, hcons⟩ := hc
  cases op with
  | login e pw => exact ⟨hwf, t, ht, htt, hcons⟩
  | activate now tok₂ =>
    refine ⟨Activate_WF s now tok₂ hwf, ?_⟩
    simp only [step]
    rcases Activate_cases s now tok₂ with ⟨e, he, _⟩ | ⟨t₂, u, ht₂, hc₂, _, _, ⟨_, he⟩ | ⟨_, he⟩⟩
    · rw [he]; exact ⟨t, ht, htt, hcons⟩
    · rw [he]
      refine ⟨t, ?_, htt, hcons⟩
      simp only [Store.deleteToken, List.mem_filter, Bool.not_eq_true', beq_eq_false_iff_ne]
      refine ⟨ht, ?_⟩
      intro heq
      obtain ⟨htm₂, htt₂⟩ := findToken_some ht₂
      have : t = t₂ := List.inj_on_of_nodup_map hwf.2.2.1 ht htm₂ (heq.trans htt₂.symm)
      subst this
      rw [hcons] at hc₂
      cases hc₂
    · rw [he]
      by_cases hx : t.token = tok₂
      · refine ⟨{ t with consumed := true }, ?_, htt, rfl⟩
        simp only [Store.consumeTokenAndActivate, List.mem_map]
        exact ⟨t, ht, by simp [hx]⟩
      · refine ⟨t, ?_, htt, hcons⟩
        simp only [Store.consumeTokenAndActivate, List.mem_map]
        exact ⟨t, ht, by simp [hx]⟩
  | preRegister now rnd email pw =>
    have hfresh : s.findToken rnd.token = none := by
      simpa [Op.fresh] using hfr
    refine ⟨PreRegister_WF d s now rnd email pw hwf hfresh, ?_⟩
    simp only [step]
    rcases PreRegister_cases d s now rnd email pw with h | ⟨id, hv, hp, hid⟩
    · rw [h]; exact ⟨t, ht, htt, hcons⟩
    · rw [PreRegister_eq d s now rnd email pw hv hp id hid]
      refine ⟨t, ?_, htt, hcons⟩
      simp only [Store.upsertPendingUserWithToken, List.mem_append, List.mem_filter,
        Bool.not_eq_true', beq_eq_false_iff_ne, List.mem_singleton]
      refine Or.inl ⟨ht, ?_⟩
      obtain ⟨w, _, hw, hwid, hiff⟩ := hwf.bound_user ht
      intro heq
      simp only [pendingUser] at heq
      rcases hid with ⟨_, rfl⟩ | ⟨u, hsome, hst, rfl⟩
      · have := lt_freshId s w hw
        omega
      · obtain ⟨hum, _⟩ := findUserByEmail_some hsome
        have : w = u := List.inj_on_of_nodup_map hwf.1 hw hum (hwid.trans heq)
        subst this
        rw [hiff.1 hcons] at hst
        cases hst

theorem run_keeps_consumed (d : Deps) (ops : List Op) (s : Store) (tok : String) (hwf : s.WF)
    (hfr : freshRun d s ops = true)
    (hc : ∃ t ∈ s.tokens, t.token = tok ∧ t.consumed = true) :
    (run d s ops).WF ∧ ∃ t ∈ (run d s ops).tokens, t.token = tok ∧ t.consumed = true := by
  induction ops generalizing s with
  | nil => exact ⟨hwf, hc⟩
  | cons op ops ih =>
    simp only [freshRun, Bool.and_eq_true] at hfr
    obtain ⟨h1, h2⟩ := step_keeps_consumed d s op tok hwf hfr.1 hc
    exact ih (step d s op) h1 hfr.2 h2

/-- Every sequence of requests whose draws are new leaves a well-formed store
well-formed; in particular every store reached from the empty one is. -/
theorem run_WF (d : Deps) (ops : List Op) (s : Store) (hwf : s.WF)
    (hfr : freshRun d s ops = true) : (run d s ops).WF := by
  induction ops generalizing s with
  | nil => exact hwf
  | cons op ops ih =>
    simp only [freshRun, Bool.and_eq_true] at hfr
    refine ih (step d s op) ?_ hfr.2
    cases op with
    | login e pw => exact hwf
    | activate now tok => exact Activate_WF s now tok hwf
    | preRegister now rnd email pw =>
      exact PreRegister_WF d s now rnd email pw hwf (by simpa [Op.fresh] using hfr.1)

/-- On a well-formed store the defensive outcome `ErrAlreadyActive` does not
occur: a token that is not consumed belongs to a Pending user. -/
theorem Activate_ne_already_active (s : Store) (now : Nat) (tok : String) (hwf : s.WF) :
    (Activate s now tok).2 ≠ .error .ErrAlreadyActive := by
  cases hf : s.findToken tok with
  | none => simp [Activate, hf]
  | some t =>
    cases hc : t.consumed with
    | true => simp [Activate, hf, hc]
    | false =>
      obtain ⟨u, hu, _, _, hiff⟩ := hwf.bound_user (findToken_some hf).1
      have hst : u.status = .Pending := by
        cases h : u.status with
        | Pending => rfl
        | Active => rw [hiff.2 h] at hc; cases hc
      by_cases hexp : t.expiresAt < now <;> simp [Activate, hf, hc, hu, hst, hexp]

/-! ## The flows: statements of section 8 of the specification -/

/-- C3: for a valid email and password whose email no user holds, `PreRegister`
followed by `Activate` with the token `PreRegister` drew (within the token's
lifetime) returns the new user's identifier and leaves that user Active, and a
following `Login` with the same email and password returns the session token
the TokenSigner issues for that user.  The draw is new to the store. -/
theorem register_activate_login (d : Deps) (s : Store) (t₁ t₂ : Nat) (rnd : Random)
    (email pw jwt : String)
    (hfresh : s.findToken rnd.token = none)
    (hv : d.policy.validEmail email = true) (hp : d.policy.validPassword pw = true)
    (hunused : s.findUserByEmail (d.policy.normalize email) = none)
    (hexp : t₂ ≤ t₁ + d.policy.ttl)
    (hsign : d.jwter.Issue s.freshId d.policy.claims = some jwt) :
    (PreRegister d s t₁ rnd email pw).2
      = (if d.mailer.Send (d.policy.normalize email) rnd.token then .ok ()
          else .error .ErrNotifyFailed) ∧
    (Activate (PreRegister d s t₁ rnd email pw).1 t₂ rnd.token).2 = .ok s.freshId ∧
    (∃ u, (Activate (PreRegister d s t₁ rnd email pw).1 t₂ rnd.token).1.findUserByEmail
          (d.policy.normalize email) = some u ∧
        u.id = s.freshId ∧ u.status = .Active ∧ u.activatedAt = some t₂) ∧
    Login d (Activate (PreRegister d s t₁ rnd email pw).1 t₂ rnd.token).1 email pw = .ok jwt := by
  have hpre := PreRegister_eq d s t₁ rnd email pw hv hp s.freshId (Or.inl ⟨hunused, rfl⟩)
  have hid : ∀ x ∈ s.users, x.id = (pendingUser d t₁ rnd email pw s.freshId).id →
      x.email = (pendingUser d t₁ rnd email pw s.freshId).email := by
    intro x hx hxid
    have := lt_freshId s x hx
    simp only [pendingUser] at hxid
    omega
  have hact : Activate (s.upsertPendingUserWithToken (pendingUser d t₁ rnd email pw s.freshId)
      (activationToken d t₁ rnd s.freshId)) t₂ rnd.token = (_, .ok s.freshId) :=
    Activate_after_upsert s (pendingUser d t₁ rnd email pw s.freshId)
      (activationToken d t₁ rnd s.freshId) t₂ hid (findToken_none hfresh) rfl rfl rfl
      (by simp only [activationToken]; omega)
  have hfind := consume_findUserByEmail
    (s.upsertPendingUserWithToken (pendingUser d t₁ rnd email pw s.freshId)
      (activationToken d t₁ rnd s.freshId))
    rnd.token s.freshId t₂ (d.policy.normalize email) _
    (upsert_findUserByEmail s (pendingUser d t₁ rnd email pw s.freshId)
      (activationToken d t₁ rnd s.freshId))
  rw [if_pos (by simp [pendingUser])] at hfind
  rw [hpre]
  dsimp only
  rw [hact]
  dsimp only
  exact ⟨rfl, rfl, ⟨_, hfind, rfl, rfl, rfl⟩,
    Login_ok d _ email pw _ jwt hfind rfl (d.hasher.compare_hash _ _) hsign⟩

/-- The scenario of the specification: `PreRegister("a@x.com", "Secret123")` on the
empty store with token `"T"`, `Activate("T")` at time 5, then `Login`. -/
theorem register_activate_login_witness :
    Store.empty.findToken "T" = none ∧
    (testDeps true true).policy.validEmail "a@x.com" = true ∧
    (testDeps true true).policy.validPassword "Secret123" = true ∧
    Store.empty.findUserByEmail "a@x.com" = none ∧
    (PreRegister (testDeps true true) Store.empty 0 ⟨"T", 7⟩ "a@x.com" "Secret123").1
      = pendingStore ∧
    (Activate pendingStore 5 "T").1 = activeStore ∧
    Login (testDeps true true)
      (Activate (PreRegister (testDeps true true) Store.empty 0 ⟨"T", 7⟩ "a@x.com"
        "Secret123").1 5 "T").1 "a@x.com" "Secret123" = .ok "jwt" :=
  ⟨by decide, by decide, by decide, by decide, by decide, by decide,
    (register_activate_login (testDeps true true) Store.empty 0 5 ⟨"T", 7⟩ "a@x.com" "Secret123"
      "jwt" (by decide) (by decide) (by decide) (by decide) (by decide) (by decide)).2.2.2⟩

/-- C5: `Login` gives one and the same error, `ErrInvalidCredentials`, when the
email belongs to no user, when it belongs to a Pending user (whatever the
password, the correct one included) and when it belongs to an Active user and
the password does not match. -/
theorem Login_same_error (d : Deps) (s₁ s₂ s₃ : Store) (e₁ e₂ e₃ p₁ p₂ p₃ : String)
    (u₂ u₃ : User)
    (h₁ : s₁.findUserByEmail (d.policy.normalize e₁) = none)
    (h₂ : s₂.findUserByEmail (d.policy.normalize e₂) = some u₂) (hs₂ : u₂.status = .Pending)
    (h₃ : s₃.findUserByEmail (d.policy.normalize e₃) = some u₃) (hs₃ : u₃.status = .Active)
    (hp₃ : d.hasher.compare p₃ u₃.passwordHash = false) :
    Login d s₁ e₁ p₁ = .error .ErrInvalidCredentials ∧
    Login d s₂ e₂ p₂ = .error .ErrInvalidCredentials ∧
    Login d s₃ e₃ p₃ = .error .ErrInvalidCredentials := by
  refine ⟨?_, ?_, ?_⟩
  · simp [Login, h₁]
  · simp [Login, h₂, hs₂]
  · simp [Login, h₃, hs₃, hp₃]

/-- The three cases on concrete stores: no user, the Pending user with its own
password, the Active user with a wrong password; the Active user with its own
password logs in. -/
theorem Login_same_error_witness :
    (testDeps true true).hasher.compare "Secret123" "Secret123" = true ∧
    Login (testDeps true true) activeStore "a@x.com" "Secret123" = .ok "jwt" ∧
    Login (testDeps true true) Store.empty "a@x.com" "Secret123"
      = .error .ErrInvalidCredentials ∧
    Login (testDeps true true) pendingStore "a@x.com" "Secret123"
      = .error .ErrInvalidCredentials ∧
    Login (testDeps true true) activeStore "a@x.com" "wrong"
      = .error .ErrInvalidCredentials :=
  ⟨by decide, by decide,
    Login_same_error (testDeps true true) Store.empty pendingStore activeStore
      "a@x.com" "a@x.com" "a@x.com" "Secret123" "Secret123" "wrong"
      ⟨1, "a@x.com", "Secret123", .Pending, 0, none⟩
      ⟨1, "a@x.com", "Secret123", .Active, 0, some 5⟩
      (by decide) (by decide) (by decide) (by decide) (by decide) (by decide)⟩

/-- C6: when the email belongs to a Pending user of a well-formed store, a
further valid `PreRegister` with that email (drawing a new token) supersedes
every token bound to that user: `Activate` with an earlier token then fails
with `ErrTokenNotFound` and changes nothing, `Activate` with the new token
within its lifetime succeeds for the same user, and exactly one user record
carries the email. -/
theorem PreRegister_supersedes_pending (d : Deps) (s : Store) (now now₂ : Nat) (rnd : Random)
    (email pw : String) (u : User) (t₀ : ActivationToken)
    (hwf : s.WF) (hfresh : s.findToken rnd.token = none)
    (hv : d.policy.validEmail email = true) (hp : d.policy.validPassword pw = true)
    (hu : s.findUserByEmail (d.policy.normalize email) = some u) (hs : u.status = .Pending)
    (ht₀ : t₀ ∈ s.tokens) (hb : t₀.userId = u.id) :
    Activate (PreRegister d s now rnd email pw).1 now₂ t₀.token
      = ((PreRegister d s now rnd email pw).1, .error .ErrTokenNotFound) ∧
    (now₂ ≤ now + d.policy.ttl →
      (Activate (PreRegister d s now rnd email pw).1 now₂ rnd.token).2 = .ok u.id ∧
      ∃ u1, (Activate (PreRegister d s now rnd email pw).1 now₂ rnd.token).1.findUserByEmail
          (d.policy.normalize email) = some u1 ∧ u1.id = u.id ∧ u1.status = .Active) ∧
    (PreRegister d s now rnd email pw).1.users.countP
      (fun x => x.email == d.policy.normalize email) = 1 := by
  have hpre := PreRegister_eq d s now rnd email pw hv hp u.id (Or.inr ⟨u, hu, hs, rfl⟩)
  obtain ⟨hum, hue⟩ := findUserByEmail_some hu
  have hid : ∀ x ∈ s.users, x.id = (pendingUser d now rnd email pw u.id).id →
      x.email = (pendingUser d now rnd email pw u.id).email := by
    intro x hx hxid
    have : x = u := List.inj_on_of_nodup_map hwf.1 hx hum hxid
    subst this
    exact hue
  rw [hpre]
  refine ⟨?_, ?_, ?_⟩
  · dsimp only
    have hnone := upsert_findToken_old s (pendingUser d now rnd email pw u.id)
      (activationToken d now rnd u.id) t₀ hwf.2.2.1 ht₀ hb
      (fun h => findToken_none hfresh t₀ ht₀ h.symm)
    simp [Activate, hnone]
  · intro hexp
    have hact : Activate (s.upsertPendingUserWithToken (pendingUser d now rnd email pw u.id)
        (activationToken d now rnd u.id)) now₂ rnd.token = (_, .ok u.id) :=
      Activate_after_upsert s (pendingUser d now rnd email pw u.id)
        (activationToken d now rnd u.id) now₂ hid (findToken_none hfresh) rfl rfl rfl
        (by simp only [activationToken]; omega)
    have hfind := consume_findUserByEmail
      (s.upsertPendingUserWithToken (pendingUser d now rnd email pw u.id)
        (activationToken d now rnd u.id))
      rnd.token u.id now₂ (d.policy.normalize email) _
      (upsert_findUserByEmail s (pendingUser d now rnd email pw u.id)
        (activationToken d now rnd u.id))
    rw [if_pos (by simp [pendingUser])] at hfind
    dsimp only
    rw [hact]
    exact ⟨rfl, _, hfind, rfl, rfl⟩
  · exact upsert_count_email s (pendingUser d now rnd email pw u.id)
      (activationToken d now rnd u.id)

/-- A second `PreRegister` for the Pending `"a@x.com"` with token `"U"`: `"T"` would
have activated before, is not found after; `"U"` activates user 1. -/
theorem PreRegister_supersedes_pending_witness :
    pendingStore.WF ∧ pendingStore.findToken "U" = none ∧
    (Activate pendingStore 12 "T").2 = .ok 1 ∧
    Activate (PreRegister (testDeps true true) pendingStore 10 ⟨"U", 3⟩ "a@x.com"
        "NewSecret1").1 12 "T"
      = ((PreRegister (testDeps true true) pendingStore 10 ⟨"U", 3⟩ "a@x.com" "NewSecret1").1,
          .error .ErrTokenNotFound) ∧
    (Activate (PreRegister (testDeps true true) pendingStore 10 ⟨"U", 3⟩ "a@x.com"
        "NewSecret1").1 12 "U").2 = .ok 1 ∧
    (PreRegister (testDeps true true) pendingStore 10 ⟨"U", 3⟩ "a@x.com"
        "NewSecret1").1.users.countP (fun x => x.email == "a@x.com") = 1 :=
  have h := PreRegister_supersedes_pending (testDeps true true) pendingStore 10 12 ⟨"U", 3⟩
    "a@x.com" "NewSecret1" ⟨1, "a@x.com", "Secret123", .Pending, 0, none⟩ ⟨"T", 1, 0, 24, false⟩
    (by decide) (by decide) (by decide) (by decide) (by decide) (by decide) (by decide)
    (by decide)
  ⟨by decide, by decide, by decide, h.1, (h.2.1 (by decide)).1, h.2.2⟩

/-- C7: for an unconsumed token of a well-formed store, `Activate` after the
token's expiry time fails with `ErrTokenExpired`, leaves every user record as it
was (the bound user stays Pending) and deletes the token, so that `Activate`
with the same token again, at any time, fails with `ErrTokenNotFound`. -/
theorem Activate_expired_then_not_found (s : Store) (now now₂ : Nat) (tok : String)
    (t : ActivationToken) (hwf : s.WF) (ht : s.findToken tok = some t)
    (hc : t.consumed = false) (hexp : t.expiresAt < now) :
    Activate s now tok = (s.deleteToken tok, .error .ErrTokenExpired) ∧
    (s.deleteToken tok).users = s.users ∧
    (∃ u, (s.deleteToken tok).findUserById t.userId = some u ∧ u.status = .Pending) ∧
    Activate (s.deleteToken tok) now₂ tok = (s.deleteToken tok, .error .ErrTokenNotFound) := by
  obtain ⟨u, hu, _, _, hiff⟩ := hwf.bound_user (findToken_some ht).1
  have hst : u.status = .Pending := by
    cases h : u.status with
    | Pending => rfl
    | Active => rw [hiff.2 h] at hc; cases hc
  have hnone : (s.deleteToken tok).findToken tok = none := by
    simp only [Store.findToken, Store.deleteToken]
    rw [List.find?_eq_none]
    intro y hy hyt
    simp [hyt] at hy
  refine ⟨by simp [Activate, ht, hc, hu, hst, hexp], rfl, ⟨u, hu, hst⟩, ?_⟩
  simp [Activate, hnone]

/-- The token `"T"` expires at 24: `Activate` at 25 reports expiry, at 26 the token
is not found, the user is still Pending. -/
theorem Activate_expired_then_not_found_witness :
    pendingStore.WF ∧ pendingStore.findToken "T" = some ⟨"T", 1, 0, 24, false⟩ ∧
    Activate pendingStore 25 "T" = (pendingStore.deleteToken "T", .error .ErrTokenExpired) ∧
    (pendingStore.deleteToken "T").findUserById 1
      = some ⟨1, "a@x.com", "Secret123", .Pending, 0, none⟩ ∧
    Activate (pendingStore.deleteToken "T") 26 "T"
      = (pendingStore.deleteToken "T", .error .ErrTokenNotFound) :=
  have h := Activate_expired_then_not_found pendingStore 25 26 "T" ⟨"T", 1, 0, 24, false⟩
    (by decide) (by decide) (by decide) (by decide)
  ⟨by decide, by decide, h.1, by decide, h.2.2.2⟩

/-- C4: after one successful `Activate(token)` on a well-formed store, every
later `Activate` with the same token, at any time and after any further requests
(each `PreRegister` among them drawing a token new to the store), fails with
`ErrTokenAlreadyUsed` and leaves the store, and so the user, exactly as it was. -/
theorem Activate_at_most_once (d : Deps) (s : Store) (now now₂ : Nat) (tok : String) (uid : Nat)
    (ops : List Op) (hwf : s.WF) (hok : (Activate s now tok).2 = .ok uid)
    (hfr : freshRun d (Activate s now tok).1 ops = true) :
    Activate (run d (Activate s now tok).1 ops) now₂ tok
      = (run d (Activate s now tok).1 ops, .error .ErrTokenAlreadyUsed) := by
  obtain ⟨h1, h2⟩ := run_keeps_consumed d ops (Activate s now tok).1 tok
    (Activate_WF s now tok hwf) hfr (Activate_ok_consumes s now tok uid hok)
  exact Activate_of_consumed _ now₂ tok h1 h2

/-- After `Activate("T")` at time 5, another registration and activation, a refused
re-registration of `"a@x.com"` and a login, `Activate("T")` at time 9 fails with
`ErrTokenAlreadyUsed`. -/
theorem Activate_at_most_once_witness :
    pendingStore.WF ∧ Activate pendingStore 5 "T" = (activeStore, .ok 1) ∧
    run (testDeps true true) activeStore
        [.preRegister 6 ⟨"U", 1⟩ "b@x.com" "Password1", .activate 7 "U",
         .preRegister 8 ⟨"V", 2⟩ "a@x.com" "Secret123", .login "a@x.com" "Secret123"]
      = ⟨[⟨1, "a@x.com", "Secret123", .Active, 0, some 5⟩,
          ⟨2, "b@x.com", "Password1", .Active, 6, some 7⟩],
         [⟨"T", 1, 0, 24, true⟩, ⟨"U", 2, 6, 30, true⟩]⟩ ∧
    Activate (run (testDeps true true) (Activate pendingStore 5 "T").1
        [.preRegister 6 ⟨"U", 1⟩ "b@x.com" "Password1", .activate 7 "U",
         .preRegister 8 ⟨"V", 2⟩ "a@x.com" "Secret123", .login "a@x.com" "Secret123"]) 9 "T"
      = (run (testDeps true true) (Activate pendingStore 5 "T").1
        [.preRegister 6 ⟨"U", 1⟩ "b@x.com" "Password1", .activate 7 "U",
         .preRegister 8 ⟨"V", 2⟩ "a@x.com" "Secret123", .login "a@x.com" "Secret123"],
          .error .ErrTokenAlreadyUsed) :=
  ⟨by decide, by decide, by decide,
    Activate_at_most_once (testDeps true true) pendingStore 5 9 "T" 1
      [.preRegister 6 ⟨"U", 1⟩ "b@x.com" "Password1", .activate 7 "U",
       .preRegister 8 ⟨"V", 2⟩ "a@x.com" "Secret123", .login "a@x.com" "Secret123"]
      (by decide) (by decide) (by decide)⟩

end LoginExample
